import Mathlib

/-!
Shallow embedding of `src/dictionary_mapper/main.py` (class `RawDictionaryMapper`).

Documents are JSON-like Python values: `None`, booleans, integers, strings,
lists, and insertion-ordered dictionaries.  Dictionary keys are modelled as a
separate `PyKey` type because the writer can store values under integer keys
(`lst_items[idx] = value` when `lst_items` happens to be a `dict`), while all
keys written by normal paths are strings.

Mutation in the Python source happens through aliased references into a tree;
here it is expressed by state passing: each operation returns the updated
value.  Operations that can raise in Python return `Except Err`; an
`Except.error` models an uncaught Python exception of the corresponding class.
-/

/-- Python exception classes that the code under `src/` can raise. -/
inductive Err : Type where
  | typeError : Err
  | indexError : Err
  | keyError : Err
  | attributeError : Err
deriving DecidableEq, Repr

/-- A Python dictionary key: a string or an integer. -/
inductive PyKey : Type where
  | str : String → PyKey
  | int : Nat → PyKey
deriving DecidableEq, Repr

/-- A JSON-like Python value: `None`, `bool`, `int`, `str`, `list`, or an
insertion-ordered `dict` represented as an association list. -/
inductive Val : Type where
  | none : Val
  | bool : Bool → Val
  | int : Int → Val
  | str : String → Val
  | list : List Val → Val
  | dict : List (PyKey × Val) → Val

/-- Test for the Python `None` value (`cur is None`). -/
def Val.isNone : Val → Bool
  | .none => true
  | _ => false

/-- Python `isinstance(v, dict)`. -/
def Val.isDict : Val → Bool
  | .dict _ => true
  | _ => false

/-- Python `isinstance(v, list)`. -/
def Val.isList : Val → Bool
  | .list _ => true
  | _ => false

/-- Lookup in an insertion-ordered dictionary (`d.get(k)` / `d[k]`). -/
def dictGet (kvs : List (PyKey × Val)) (k : PyKey) : Option Val :=
  match kvs with
  | [] => Option.none
  | (k', v) :: rest => if k' = k then some v else dictGet rest k

/-- Store into an insertion-ordered dictionary (`d[k] = x`): an existing key
keeps its position, a new key is appended at the end. -/
def dictSet (kvs : List (PyKey × Val)) (k : PyKey) (x : Val) : List (PyKey × Val) :=
  match kvs with
  | [] => [(k, x)]
  | (k', v) :: rest => if k' = k then (k', x) :: rest else (k', v) :: dictSet rest k x

/-- Python `dst.setdefault(k, d)`: on a `dict`, return the existing value (and
the unchanged dict) or insert `d`; on anything else raise `AttributeError`.
Returns the value at the key together with the updated receiver. -/
def pySetdefault (v : Val) (k : String) (d : Val) : Except Err (Val × Val) :=
  match v with
  | .dict kvs =>
      match dictGet kvs (.str k) with
      | some w => pure (w, .dict kvs)
      | Option.none => pure (d, .dict (kvs ++ [(PyKey.str k, d)]))
  | _ => throw .attributeError

/-- Python `v[i]` for a non-negative integer `i`: list indexing
(`IndexError` out of range), dict lookup under the integer key
(`KeyError` when absent), string indexing (a one-character string,
`IndexError` out of range), `TypeError` otherwise. -/
def getItemNat (v : Val) (i : Nat) : Except Err Val :=
  match v with
  | .list xs =>
      match xs.get? i with
      | some x => pure x
      | Option.none => throw .indexError
  | .dict kvs =>
      match dictGet kvs (.int i) with
      | some x => pure x
      | Option.none => throw .keyError
  | .str s =>
      match s.toList.get? i with
      | some c => pure (.str c.toString)
      | Option.none => throw .indexError
  | _ => throw .typeError

/-- Python `v[i] = x` for a non-negative integer `i`: list element assignment
(`IndexError` out of range), dict store under the integer key, `TypeError`
otherwise (strings are immutable). -/
def setItemNat (v : Val) (i : Nat) (x : Val) : Except Err Val :=
  match v with
  | .list xs => if i < xs.length then pure (.list (xs.set i x)) else throw .indexError
  | .dict kvs => pure (.dict (dictSet kvs (.int i) x))
  | _ => throw .typeError

/-- Python `v[k] = x` for a string key `k`: dict store, `TypeError` otherwise
(in particular `list[str]` assignment is a `TypeError`). -/
def setItemStr (v : Val) (k : String) (x : Val) : Except Err Val :=
  match v with
  | .dict kvs => pure (.dict (dictSet kvs (.str k) x))
  | _ => throw .typeError

/-- First code points of the runs of ten consecutive Unicode decimal digits
(category `Nd`, digit values `0`–`9` in order), Unicode 15.0 as shipped with
the Python versions (3.12+) that can run this code.  Python's regex `\d`
matches exactly these characters, and `int(...)` maps each to its digit
value. -/
def ndRangeStarts : List Nat :=
  [48, 1632, 1776, 1984, 2406, 2534, 2662, 2790, 2918, 3046, 3174, 3302,
   3430, 3558, 3664, 3792, 3872, 4160, 4240, 6112, 6160, 6470, 6608, 6784,
   6800, 6992, 7088, 7232, 7248, 42528, 43216, 43264, 43472, 43504, 43600,
   44016, 65296, 66720, 68912, 69734, 69872, 69942, 70096, 70384, 70736,
   70864, 71248, 71360, 71472, 71904, 72016, 72784, 73040, 73120, 73552,
   92768, 92864, 93008, 120782, 120792, 120802, 120812, 120822, 123200,
   123632, 124144, 125264, 130032]

/-- The decimal value of a Unicode decimal digit (category `Nd`), `none` for
any other character. -/
def pyDigitVal (c : Char) : Option Nat :=
  (ndRangeStarts.find? (fun b => decide (b ≤ c.toNat ∧ c.toNat < b + 10))).map
    (fun b => c.toNat - b)

/-- Python's regex `\d`: any Unicode decimal digit. -/
def pyIsDigit (c : Char) : Bool := (pyDigitVal c).isSome

/-- Value of a non-empty run of decimal digits, as computed by Python
`int(...)`: each Unicode decimal digit contributes its digit value.  (Only
applied to runs of `pyIsDigit` characters, where `pyDigitVal` is defined.) -/
def digitsToNat (cs : List Char) : Nat :=
  cs.foldl (fun acc c => acc * 10 + (pyDigitVal c).getD 0) 0

/-- The regex character class `[^\[]`: any character other than `[`
(including a newline). -/
def notBracket (c : Char) : Bool := c ≠ '['

/-- The anchored match of `main.py:41` and `main.py:66`,
regex `^([^\[]+)\[(\d+)\]$` under `re.match`: a non-empty bracket-free key
followed by a bracketed non-empty digit run, where `\d` is any Unicode
decimal digit and the final `$` matches at the end of the string or just
before one trailing newline. -/
def matchIndexed (part : String) : Option (String × Nat) :=
  let cs := part.toList
  let key := cs.takeWhile notBracket
  if key.isEmpty then Option.none else
  match cs.drop key.length with
  | '[' :: mid =>
      let ds := mid.takeWhile pyIsDigit
      if ds.isEmpty then Option.none else
      match mid.drop ds.length with
      | [']'] => some (String.mk key, digitsToNat ds)
      | [']', '\n'] => some (String.mk key, digitsToNat ds)
      | _ => Option.none
  | _ => Option.none

/-- The anchored match of `main.py:67`, regex `^([^\[]+)\[(\d+)\]\.([^\[]]+)$`
under `re.match`: key, bracketed digits, a literal dot, then one non-`[`
character followed by one or more `]` characters, with `$` again allowing
one trailing newline (excluded from the captured group).  Since path parts
never contain a dot, this never matches in calls reached from
`_set_by_path`'s own split. -/
def matchSub (part : String) : Option (String × Nat × String) :=
  let cs := part.toList
  let key := cs.takeWhile notBracket
  if key.isEmpty then Option.none else
  match cs.drop key.length with
  | '[' :: rest2 =>
      let ds := rest2.takeWhile pyIsDigit
      if ds.isEmpty then Option.none else
      match rest2.drop ds.length with
      | ']' :: '.' :: c :: brs =>
          if c = '[' then Option.none else
          let js := brs.takeWhile (fun b => b = ']')
          if js.isEmpty then Option.none else
          match brs.drop js.length with
          | [] => some (String.mk key, digitsToNat ds, String.mk (c :: brs))
          | ['\n'] => some (String.mk key, digitsToNat ds, String.mk (c :: js))
          | _ => Option.none
      | _ => Option.none
  | _ => Option.none

/-- Python `str.split(sep)` for a single-character separator, on the character
list: split at every occurrence of the separator, keeping empty pieces.  The
result is always non-empty (`"".split(".") == [""]`). -/
def splitChars (sep : Char) (cs : List Char) : List (List Char) :=
  match cs with
  | [] => [[]]
  | c :: rest =>
      if c = sep then [] :: splitChars sep rest
      else
        match splitChars sep rest with
        | ps :: tail => (c :: ps) :: tail
        | [] => [[c]]

/-- Python `path.split(".")` (`main.py:40` and `main.py:61`). -/
def pySplit (s : String) : List String :=
  (splitChars '.' s.toList).map String.mk

/-- One loop iteration of `_get_by_path` (`main.py:41-55`), before the
`None`-to-default substitution: resolve a single path part against `cur`.
The `try/except IndexError` of `main.py:48-51` is modelled by absorbing
exactly `Err.indexError` from list indexing. -/
def readSeg (cur : Val) (part : String) (dflt : Val) : Except Err Val :=
  match matchIndexed part with
  | some (key, idx) =>
      let c1 : Val :=
        match cur with
        | .dict kvs => (dictGet kvs (.str key)).getD dflt
        | _ => dflt
      match c1 with
      | .list xs =>
          match getItemNat (.list xs) idx with
          | .ok v => pure v
          | .error .indexError => pure dflt
          | .error e => throw e
      | _ => pure dflt
  | Option.none =>
      match cur with
      | .dict kvs => pure ((dictGet kvs (.str part)).getD dflt)
      | _ => pure dflt

/-- The loop of `_get_by_path` (`main.py:40-57`): resolve each part in turn,
replacing a `None` running value by the default after every part. -/
def getParts (cur : Val) (parts : List String) (dflt : Val) : Except Err Val :=
  match parts with
  | [] => pure cur
  | part :: rest => do
      let nxt ← readSeg cur part dflt
      getParts (if nxt.isNone then dflt else nxt) rest dflt

/-- `RawDictionaryMapper._get_by_path` (`main.py:38-58`).  An empty path skips
the loop and starts from the default (`source if path else default`). -/
def get_by_path (source : Val) (path : String) (dflt : Val) : Except Err Val :=
  if path = "" then pure dflt else getParts source (pySplit path) dflt

/-- The `while len(lst) <= idx: lst.append({})` loop of `main.py:73-74`,
`79-80` and `89-90`, in the case where the receiver is a list: append the
`{}` placeholder one at a time until the length exceeds `idx`. -/
def growList (xs : List Val) (idx : Nat) : List Val :=
  if xs.length ≤ idx then growList (xs ++ [Val.dict []]) idx else xs
termination_by idx + 1 - xs.length
decreasing_by simp; omega

/-- The same `while` loop on an arbitrary receiver: `len` is defined for
lists, dicts and strings (`TypeError` otherwise), and `.append` exists only
on lists (`AttributeError` otherwise, raised on the first needed append). -/
def padVal (v : Val) (idx : Nat) : Except Err Val :=
  match v with
  | .list xs => pure (.list (growList xs idx))
  | .dict kvs => if kvs.length ≤ idx then throw .attributeError else pure (.dict kvs)
  | .str s => if s.length ≤ idx then throw .attributeError else pure (.str s)
  | _ => throw .typeError

/-- The body of `RawDictionaryMapper._set_by_path` (`main.py:60-96`) on the
already-split list of parts.  The source splits the path, processes the head
part, and recurses on `".".join(parts[1:])`; since the pieces of a split
contain no dot, re-joining and re-splitting is the identity, so the
recursion is expressed directly on the tail of the list. -/
def setParts (dst : Val) (parts : List String) (value : Val) : Except Err Val :=
  match parts with
  | [] => pure dst
  | part :: rest =>
    match rest with
    | [] =>
      match matchSub part with
      | some (key, idx, subkey) => do
          let (lst, dst1) ← pySetdefault dst key (Val.list [])
          let padded ← padVal lst idx
          let elem ← getItemNat padded idx
          let elem1 ← setItemStr elem subkey value
          let padded1 ← setItemNat padded idx elem1
          setItemStr dst1 key padded1
      | Option.none =>
        match matchIndexed part with
        | some (key, idx) => do
            let (lst, dst1) ← pySetdefault dst key (Val.list [])
            let padded ← padVal lst idx
            let padded1 ← setItemNat padded idx value
            setItemStr dst1 key padded1
        | Option.none => setItemStr dst part value
    | _ :: _ =>
      match matchIndexed part with
      | some (key, idx) => do
          let (lst, dst1) ← pySetdefault dst key (Val.list [])
          let padded ← padVal lst idx
          let elem ← getItemNat padded idx
          let padded1 ← if elem.isDict then pure padded else setItemNat padded idx (Val.dict [])
          let elem1 ← getItemNat padded1 idx
          let elem2 ← setParts elem1 rest value
          let padded2 ← setItemNat padded1 idx elem2
          setItemStr dst1 key padded2
      | Option.none => do
          let (child, dst1) ← pySetdefault dst part (Val.dict [])
          let child1 ← setParts child rest value
          setItemStr dst1 part child1

/-- `RawDictionaryMapper._set_by_path` (`main.py:60-96`): split the path and
process the parts.  The `if not parts: return` guard of `main.py:62-63`
corresponds to the `[]` case of `setParts`. -/
def set_by_path (dst : Val) (path : String) (value : Val) : Except Err Val :=
  setParts dst (pySplit path) value

/-- A value of the mapping specification (`SpecEntry` of `main.py:32`): either
a bare target-path string, or a `TransformationMapping` descriptor
`{path, default, transform}`.  A transform is a Python callable that may
raise; `transform = None` (or a non-callable) is the `Option.none` case. -/
inductive SpecTarget : Type where
  | path : String → SpecTarget
  | descriptor : String → Val → Option (Val → Except Err Val) → SpecTarget

/-- One iteration of the loop of `create_transformed_dict`
(`main.py:117-136`): extract path/default/transform, read the raw value,
apply the transform with `except Exception` yielding the default, and write
the result. -/
def runEntry (source : Val) (out : Val) (entry : String × SpecTarget) : Except Err Val := do
  let (path, dflt, tf) :=
    match entry.2 with
    | .path p => (p, Val.none, Option.none)
    | .descriptor p d t => (p, d, t)
  let raw ← get_by_path source entry.1 dflt
  let val :=
    match tf with
    | some f =>
        match f raw with
        | .ok v => v
        | .error _ => dflt
    | Option.none => raw
  set_by_path out path val

/-- `RawDictionaryMapper.create_transformed_dict` (`main.py:98-138`): fold the
specification entries, in order, over an initially empty output dict.  The
specification is given as an association list in insertion order with
distinct source-path keys, matching the Python `Mapping` it iterates. -/
def create_transformed_dict (source : Val) (spec : List (String × SpecTarget)) :
    Except Err Val :=
  spec.foldlM (runEntry source) (Val.dict [])

/-! Normalization lemmas for the `Except` monad operations, and basic facts
about the embedded helpers. -/

@[simp] theorem excPureEq {α : Type} (a : α) : (pure a : Except Err α) = Except.ok a := rfl

@[simp] theorem excThrowEq {α : Type} (e : Err) : (throw e : Except Err α) = Except.error e := rfl

@[simp] theorem excBindOk {α β : Type} (a : α) (f : α → Except Err β) :
    (Except.ok a >>= f) = f a := rfl

@[simp] theorem excBindErr {α β : Type} (e : Err) (f : α → Except Err β) :
    ((Except.error e : Except Err α) >>= f) = Except.error e := rfl

@[simp] theorem excBindRet {α : Type} (x : Except Err α) :
    (x >>= fun a => Except.ok a) = x := by cases x <;> rfl

/-- Closed form of the padding loop: it appends exactly the placeholders
needed to reach length `idx + 1`, and leaves a long enough list unchanged. -/
@[simp] theorem growList_eq (xs : List Val) (idx : Nat) :
    growList xs idx = xs ++ List.replicate (idx + 1 - xs.length) (Val.dict []) := by
  induction xs, idx using growList.induct with
  | case1 xs idx h ih =>
      rw [growList, if_pos h, ih]
      have h2 : idx + 1 - xs.length = (idx + 1 - (xs.length + 1)) + 1 := by omega
      rw [h2, List.replicate_succ]
      simp
  | case2 xs idx h =>
      rw [growList, if_neg h]
      have h2 : idx + 1 - xs.length = 0 := by omega
      simp [h2]

/-- Python `split` never yields an empty list of pieces. -/
theorem splitChars_ne_nil (sep : Char) (cs : List Char) : splitChars sep cs ≠ [] := by
  match cs with
  | [] => simp [splitChars]
  | c :: rest =>
      rw [splitChars]
      split
      · simp
      · cases h : splitChars sep rest <;> simp

/-- Python `path.split(".")` never yields an empty list of pieces. -/
theorem pySplit_ne_nil (s : String) : pySplit s ≠ [] := by
  have h := splitChars_ne_nil '.' s.toList
  unfold pySplit
  cases hs : splitChars '.' s.toList
  · exact absurd hs h
  · simp

/-- Resolving a single path part in the reader never raises: every failure
mode is caught and replaced by the default. -/
theorem readSeg_ok (cur : Val) (part : String) (dflt : Val) :
    ∃ v, readSeg cur part dflt = Except.ok v := by
  unfold readSeg
  cases hm : matchIndexed part with
  | none =>
      cases cur <;> simp
  | some ki =>
      obtain ⟨key, idx⟩ := ki
      simp only
      set c1 : Val :=
        match cur with
        | .dict kvs => (dictGet kvs (.str key)).getD dflt
        | _ => dflt with hc1
      clear_value c1
      cases c1 <;> simp [getItemNat]
      case list xs =>
        cases hx : xs[idx]? <;> simp [hx]

/-- The reader loop never raises. -/
theorem getParts_ok (parts : List String) (cur dflt : Val) :
    ∃ v, getParts cur parts dflt = Except.ok v := by
  induction parts generalizing cur with
  | nil => exact ⟨cur, rfl⟩
  | cons p rest ih =>
      obtain ⟨w, hw⟩ := readSeg_ok cur p dflt
      rw [getParts, hw]
      simpa using ih (if w.isNone then dflt else w)

/-- `_get_by_path` never raises. -/
theorem get_by_path_ok (source : Val) (path : String) (dflt : Val) :
    ∃ v, get_by_path source path dflt = Except.ok v := by
  unfold get_by_path
  split
  · exact ⟨dflt, rfl⟩
  · exact getParts_ok _ _ _

/-- Writing into a fresh empty dictionary always succeeds and produces a
dictionary: every container the writer needs is created on demand. -/
theorem setParts_fresh (parts : List String) (v : Val) :
    ∃ out, setParts (Val.dict []) parts v = Except.ok (Val.dict out) := by
  induction parts with
  | nil => exact ⟨[], rfl⟩
  | cons p rest ih =>
      cases rest with
      | nil =>
          rw [setParts]
          cases hs : matchSub p with
          | some kis =>
              obtain ⟨key, idx, subkey⟩ := kis
              refine ⟨[(PyKey.str key, Val.list ((List.replicate (idx + 1)
                (Val.dict [])).set idx (Val.dict [(PyKey.str subkey, v)])))], ?_⟩
              simp [pySetdefault, dictGet, padVal, getItemNat, setItemNat, setItemStr,
                dictSet, List.get?_eq_getElem?, List.getElem?_replicate, Nat.lt_succ_self]
          | none =>
              cases hm : matchIndexed p with
              | some ki =>
                  obtain ⟨key, idx⟩ := ki
                  refine ⟨[(PyKey.str key, Val.list ((List.replicate (idx + 1)
                    (Val.dict [])).set idx v))], ?_⟩
                  simp [pySetdefault, dictGet, padVal, setItemNat, setItemStr, dictSet]
              | none => exact ⟨[(PyKey.str p, v)], rfl⟩
      | cons r rs =>
          rw [setParts]
          cases hm : matchIndexed p with
          | some ki =>
              obtain ⟨key, idx⟩ := ki
              obtain ⟨out2, hout2⟩ := ih
              refine ⟨[(PyKey.str key, Val.list ((List.replicate (idx + 1)
                (Val.dict [])).set idx (Val.dict out2)))], ?_⟩
              simp [pySetdefault, dictGet, padVal, getItemNat, setItemNat, setItemStr,
                dictSet, Val.isDict, List.get?_eq_getElem?, List.getElem?_replicate, hout2]
          | none =>
              obtain ⟨out2, hout2⟩ := ih
              refine ⟨[(PyKey.str p, Val.dict out2)], ?_⟩
              simp [pySetdefault, dictGet, setItemStr, dictSet, hout2]

/-- One specification entry applied to a fresh empty output never raises: the
read is total, transform failure is absorbed, and the write targets fresh
containers only. -/
theorem runEntry_ok_fresh (source : Val) (e : String) (t : SpecTarget) :
    ∃ out, runEntry source (Val.dict []) (e, t) = Except.ok (Val.dict out) := by
  unfold runEntry
  cases t with
  | path p =>
      obtain ⟨raw, hraw⟩ := get_by_path_ok source e Val.none
      obtain ⟨out, hout⟩ := setParts_fresh (pySplit p) raw
      exact ⟨out, by simp [hraw, set_by_path, hout]⟩
  | descriptor p d tf =>
      obtain ⟨raw, hraw⟩ := get_by_path_ok source e d
      cases tf with
      | none =>
          obtain ⟨out, hout⟩ := setParts_fresh (pySplit p) raw
          exact ⟨out, by simp [hraw, set_by_path, hout]⟩
      | some f =>
          cases hf : f raw with
          | ok r =>
              obtain ⟨out, hout⟩ := setParts_fresh (pySplit p) r
              exact ⟨out, by simp [hraw, hf, set_by_path, hout]⟩
          | error err =>
              obtain ⟨out, hout⟩ := setParts_fresh (pySplit p) d
              exact ⟨out, by simp [hraw, hf, set_by_path, hout]⟩

/-- A write whose whole path is the empty string stores the value under the
literal key `""`: the split of `""` is the single empty part, which matches
neither regex. -/
theorem set_empty_path (kvs : List (PyKey × Val)) (v : Val) :
    set_by_path (Val.dict kvs) "" v =
      Except.ok (Val.dict (dictSet kvs (PyKey.str "") v)) := by
  rw [set_by_path]
  show setParts (Val.dict kvs) [""] v = _
  rw [setParts]
  rfl

/-- A part without an opening bracket never matches the indexed-segment
regex. -/
theorem matchIndexed_no_bracket (p : String) (hp : '[' ∉ p.toList) :
    matchIndexed p = Option.none := by
  have h1 : p.data.takeWhile notBracket = p.data :=
    List.takeWhile_eq_self_iff.mpr (fun c hc => by
      simp only [notBracket, decide_eq_true_eq]
      intro he
      exact hp (he ▸ hc))
  have h2 : List.drop p.length p.data = [] := List.drop_length p.data
  simp [matchIndexed, h1, h2]

/-- A part without an opening bracket never matches the dead sub-segment
regex either. -/
theorem matchSub_no_bracket (p : String) (hp : '[' ∉ p.toList) :
    matchSub p = Option.none := by
  have h1 : p.data.takeWhile notBracket = p.data :=
    List.takeWhile_eq_self_iff.mpr (fun c hc => by
      simp only [notBracket, decide_eq_true_eq]
      intro he
      exact hp (he ▸ hc))
  have h2 : List.drop p.length p.data = [] := List.drop_length p.data
  simp [matchSub, h1, h2]

/-- Writing a value at a bracket-free list of parts into a fresh document and
reading the same parts back returns the value (when the value is not `None`,
which the reader would replace by the default). -/
theorem roundtrip_fresh (parts : List String) (v : Val) (hne : parts ≠ [])
    (hpl : ∀ part ∈ parts, '[' ∉ part.toList) :
    ∃ out, setParts (Val.dict []) parts v = Except.ok (Val.dict out) ∧
      (v.isNone = false → ∀ d, getParts (Val.dict out) parts d = Except.ok v) := by
  induction parts with
  | nil => exact absurd rfl hne
  | cons p rest ih =>
      have hp : '[' ∉ p.toList := hpl p (List.mem_cons_self p rest)
      have hmi : matchIndexed p = Option.none := matchIndexed_no_bracket p hp
      have hms : matchSub p = Option.none := matchSub_no_bracket p hp
      cases rest with
      | nil =>
          refine ⟨[(PyKey.str p, v)], ?_, ?_⟩
          · rw [setParts]
            simp [hms, hmi, setItemStr, dictSet]
          · intro hv d
            simp [getParts, readSeg, hmi, dictGet, hv]
      | cons r rs =>
          obtain ⟨out2, hout2, hread2⟩ :=
            ih (by simp) (fun q hq => hpl q (List.mem_cons_of_mem p hq))
          refine ⟨[(PyKey.str p, Val.dict out2)], ?_, ?_⟩
          · rw [setParts]
            simp [hmi, pySetdefault, dictGet, setItemStr, dictSet, hout2]
          · intro hv d
            rw [getParts]
            simp only [readSeg, hmi, dictGet, if_pos rfl, Option.getD_some, excBindOk]
            simp only [Val.isNone, Bool.false_eq_true, if_neg]
            exact hread2 hv d

/-! The claims. -/

/-- Claim C1 (code divergence, evaluated): the code pads skipped sequence
slots with the fixed placeholder `{}` regardless of the value's shape.
Writing the number `5` at index 1 under key `k` in a fresh document yields
`k == [{}, 5]`, not the claimed `k == [-1, 5]`, and writing a string at
index 3 yields `k == [{}, {}, {}, "x"]`, not `k == ["", "", "", "x"]`;
the `{}` placeholder differs from both the `-1` sentinel and the empty
string that the claim (and the repository's own tests) require. -/
theorem C1_code_pads_with_empty_dicts :
    set_by_path (Val.dict []) "k[1]" (Val.int 5) =
      Except.ok (Val.dict [(PyKey.str "k", Val.list [Val.dict [], Val.int 5])]) ∧
    set_by_path (Val.dict []) "k[3]" (Val.str "x") =
      Except.ok (Val.dict [(PyKey.str "k",
        Val.list [Val.dict [], Val.dict [], Val.dict [], Val.str "x"])]) ∧
    Val.dict [] ≠ Val.int (-1) ∧ Val.dict [] ≠ Val.str "" := by
  refine ⟨?_, ?_, by simp, by simp⟩
  · have h3 : pySplit "k[1]" = ["k[1]"] := rfl
    have h1 : matchSub "k[1]" = Option.none := rfl
    have h2 : matchIndexed "k[1]" = some ("k", 1) := rfl
    simp [set_by_path, h3, setParts, h1, h2, pySetdefault, dictGet, dictSet, padVal,
      getItemNat, setItemNat, setItemStr, List.replicate, List.get?_eq_getElem?]
  · have h3 : pySplit "k[3]" = ["k[3]"] := rfl
    have h1 : matchSub "k[3]" = Option.none := rfl
    have h2 : matchIndexed "k[3]" = some ("k", 3) := rfl
    simp [set_by_path, h3, setParts, h1, h2, pySetdefault, dictGet, dictSet, padVal,
      getItemNat, setItemNat, setItemStr, List.replicate, List.get?_eq_getElem?]

/-- Claim C2 (counterexample): the writer is not total.  Writing the scalar
`5` at `"a"` and then writing at `"a.b"` makes `_set_by_path` descend into
the scalar and raise a `TypeError` (`dst["b"] = value` on an `int`), and the
error propagates out of `create_transformed_dict`. -/
theorem C2_counterexample :
    set_by_path (Val.dict [(PyKey.str "a", Val.int 5)]) "a.b" (Val.int 7) =
      Except.error Err.typeError ∧
    create_transformed_dict (Val.dict [])
      [("x", SpecTarget.descriptor "a" (Val.int 5) Option.none),
       ("y", SpecTarget.descriptor "a.b" (Val.int 7) Option.none)] =
      Except.error Err.typeError := ⟨rfl, rfl⟩

/-- Claim C2 (amended): the writer returns without error whenever every
container it traverses is created fresh by the write itself — in particular
every write into a fresh empty document succeeds, for every path string and
value — and `create_transformed_dict` returns a document for every
single-entry specification.  But when successive entries write conflicting
shapes to overlapping target paths (a scalar at `"a"` followed by a write at
`"a.b"`), the writer raises a type error that propagates to the caller. -/
theorem C2_amended_totality :
    (∀ (path : String) (v : Val), ∃ out, set_by_path (Val.dict []) path v = Except.ok out) ∧
    (∀ (source : Val) (e : String) (t : SpecTarget),
      ∃ out, create_transformed_dict source [(e, t)] = Except.ok out) := by
  constructor
  · intro path v
    obtain ⟨out, hout⟩ := setParts_fresh (pySplit path) v
    exact ⟨Val.dict out, hout⟩
  · intro source e t
    obtain ⟨out, hout⟩ := runEntry_ok_fresh source e t
    exact ⟨Val.dict out, by simp [create_transformed_dict, List.foldlM, hout]⟩

/-- Claim C3 (counterexample): an incompatible value in a traversed slot is
not always replaced by a fresh container.  A sequence under a plain key that
must hold a mapping (`{a: [1]}`, write at `"a.b"`) raises a `TypeError`, and
a scalar under an indexed key's name (`{a: 5}`, write at `"a[0].b"`) raises
a `TypeError` when the padding loop calls `len` on it; neither is
overwritten. -/
theorem C3_counterexample :
    set_by_path (Val.dict [(PyKey.str "a", Val.list [Val.int 1])]) "a.b" (Val.int 7) =
      Except.error Err.typeError ∧
    set_by_path (Val.dict [(PyKey.str "a", Val.int 5)]) "a[0].b" (Val.int 7) =
      Except.error Err.typeError := ⟨rfl, rfl⟩

/-- Claim C3 (amended): only the element slot of a sequence at an indexed
non-final segment is replaced when it holds a non-mapping: there the writer
installs a fresh empty mapping and continues, for every non-mapping occupant
`w` and every value.  An incompatible value under a plain key, or under an
indexed key's name, is not replaced: the writer operates on it as-is and
raises a type error. -/
theorem C3_amended_replacement :
    ∀ (w v : Val), w.isDict = false →
    set_by_path (Val.dict [(PyKey.str "a", Val.list [w])]) "a[0].b" v =
      Except.ok (Val.dict [(PyKey.str "a", Val.list [Val.dict [(PyKey.str "b", v)]])]) ∧
    (∀ u : Val, set_by_path (Val.dict [(PyKey.str "a", Val.int 5)]) "a.b" u =
      Except.error Err.typeError) ∧
    (∀ u : Val, set_by_path (Val.dict [(PyKey.str "a", Val.int 5)]) "a[0]" u =
      Except.error Err.typeError) := by
  intro w v hw
  refine ⟨?_, fun u => rfl, fun u => rfl⟩
  show setParts (Val.dict [(PyKey.str "a", Val.list [w])]) ["a[0]", "b"] v = _
  have h2 : matchIndexed "a[0]" = some ("a", 0) := rfl
  have h1 : matchSub "b" = Option.none := rfl
  have h0 : matchIndexed "b" = Option.none := rfl
  simp [setParts, h2, h1, h0, pySetdefault, dictGet,
    dictSet, padVal, getItemNat, setItemNat, setItemStr, hw, List.get?_eq_getElem?]

/-- Witness for the amended C3 at a concrete non-mapping occupant: the
integer `3` in the slot is replaced by a fresh mapping and the write of
`"z"` at `"a[0].b"` lands inside it. -/
theorem C3_amended_replacement_witness :
    set_by_path (Val.dict [(PyKey.str "a", Val.list [Val.int 3])]) "a[0].b" (Val.str "z") =
      Except.ok (Val.dict [(PyKey.str "a",
        Val.list [Val.dict [(PyKey.str "b", Val.str "z")]])]) :=
  (C3_amended_replacement (Val.int 3) (Val.str "z") rfl).1

/-- Claim C4: for a specification entry with a callable transform, the value
handed to the writer at the target path is the entry's default whenever the
transform raises on the value read from the source, and the transform's
return value whenever it returns normally; the raw source value is never
written on failure. -/
theorem C4_transform_failure_writes_default :
    ∀ (source : Val) (e p : String) (d : Val) (f : Val → Except Err Val),
    ∃ raw, get_by_path source e d = Except.ok raw ∧
      (∀ err, f raw = Except.error err →
        create_transformed_dict source [(e, SpecTarget.descriptor p d (some f))] =
          set_by_path (Val.dict []) p d) ∧
      (∀ r, f raw = Except.ok r →
        create_transformed_dict source [(e, SpecTarget.descriptor p d (some f))] =
          set_by_path (Val.dict []) p r) := by
  intro source e p d f
  obtain ⟨raw, hraw⟩ := get_by_path_ok source e d
  refine ⟨raw, hraw, ?_, ?_⟩
  · intro err herr
    simp [create_transformed_dict, List.foldlM, runEntry, hraw, herr]
  · intro r hr
    simp [create_transformed_dict, List.foldlM, runEntry, hraw, hr]

/-- Witness for C4: with source `{a: 5}`, default `"D"` and a transform that
always raises, the engine writes `"D"` at the target, never the raw `5`. -/
theorem C4_transform_failure_writes_default_witness :
    create_transformed_dict (Val.dict [(PyKey.str "a", Val.int 5)])
      [("a", SpecTarget.descriptor "t" (Val.str "D")
        (some fun _ => Except.error Err.typeError))] =
      Except.ok (Val.dict [(PyKey.str "t", Val.str "D")]) := by
  obtain ⟨raw, hraw, herr, hok⟩ :=
    C4_transform_failure_writes_default (Val.dict [(PyKey.str "a", Val.int 5)]) "a" "t"
      (Val.str "D") (fun _ => Except.error Err.typeError)
  rw [herr Err.typeError rfl]
  rfl

/-- Claim C5: an explicitly null leaf reads exactly like an absent one — for
the document `{a: null}` and every default `d`, reading `"a"` returns `d`,
identically to reading `"a"` on the empty document — and the null-to-default
substitution is applied after every traversal step, not only at the leaf:
whenever a resolved part yields `None`, traversal continues from the
default. -/
theorem C5_null_leaf_equals_missing :
    (∀ d : Val,
      get_by_path (Val.dict [(PyKey.str "a", Val.none)]) "a" d = Except.ok d ∧
      get_by_path (Val.dict []) "a" d = Except.ok d) ∧
    (∀ (cur : Val) (p : String) (rest : List String) (d nxt : Val),
      readSeg cur p d = Except.ok nxt → nxt.isNone = true →
      getParts cur (p :: rest) d = getParts d rest d) := by
  constructor
  · intro d
    constructor
    · show getParts (Val.dict [(PyKey.str "a", Val.none)]) ["a"] d = Except.ok d
      simp [getParts, readSeg, matchIndexed, notBracket, dictGet, Val.isNone]
    · show getParts (Val.dict []) ["a"] d = Except.ok d
      simp [getParts, readSeg, matchIndexed, notBracket, dictGet]
  · intro cur p rest d nxt h hn
    rw [getParts, h]
    simp [hn]

/-- Witness for C5: in `{a: null}` with default `7`, resolving the part `"a"`
yields `null`, and traversal of the remaining parts continues from `7`. -/
theorem C5_null_leaf_equals_missing_witness :
    getParts (Val.dict [(PyKey.str "a", Val.none)]) ["a", "b"] (Val.int 7) =
      getParts (Val.int 7) ["b"] (Val.int 7) :=
  C5_null_leaf_equals_missing.2 (Val.dict [(PyKey.str "a", Val.none)]) "a" ["b"]
    (Val.int 7) Val.none rfl rfl

/-- Claim C6: the path reader is total — for every source document, every
path string and every default it returns a value and never raises — and the
standard failure modes all degrade to the default: a missing key, a
non-container where a container is expected, and an out-of-range index. -/
theorem C6_reader_total :
    (∀ (source : Val) (path : String) (d : Val),
      ∃ v, get_by_path source path d = Except.ok v) ∧
    (∀ d : Val,
      get_by_path (Val.dict []) "k" d = Except.ok d ∧
      get_by_path (Val.dict [(PyKey.str "k", Val.int 3)]) "k.x" d = Except.ok d ∧
      get_by_path (Val.dict [(PyKey.str "k", Val.list [Val.int 1])]) "k[5]" d =
        Except.ok d) := by
  refine ⟨fun source path d => get_by_path_ok source path d, fun d => ⟨?_, ?_, ?_⟩⟩
  · show getParts (Val.dict []) ["k"] d = Except.ok d
    simp [getParts, readSeg, matchIndexed, notBracket, dictGet]
  · show getParts (Val.dict [(PyKey.str "k", Val.int 3)]) ["k", "x"] d = Except.ok d
    simp [getParts, readSeg, matchIndexed, notBracket, dictGet, Val.isNone]
  · show getParts (Val.dict [(PyKey.str "k", Val.list [Val.int 1])]) ["k[5]"] d =
      Except.ok d
    have hk : matchIndexed "k[5]" = some ("k", 5) := rfl
    simp [getParts, readSeg, hk, dictGet, getItemNat, List.get?_eq_getElem?]

/-- Claim C7: round trip on plain paths — writing a non-null leaf value `v`
at a non-empty dotted path without bracketed segments into a fresh empty
document, and then reading the same path back with any default, returns `v`.
(The empty path is excluded: the reader returns the default without
traversing when the path string is empty; a null leaf is excluded because
the reader substitutes the default for a null result.) -/
theorem C7_roundtrip_plain_paths :
    ∀ (p : String) (v : Val), p ≠ "" →
    (∀ part ∈ pySplit p, '[' ∉ part.toList) → v.isNone = false →
    ∃ doc, set_by_path (Val.dict []) p v = Except.ok doc ∧
      ∀ d, get_by_path doc p d = Except.ok v := by
  intro p v hp hpl hv
  obtain ⟨out, hset, hread⟩ := roundtrip_fresh (pySplit p) v (pySplit_ne_nil p) hpl
  refine ⟨Val.dict out, hset, ?_⟩
  intro d
  rw [get_by_path, if_neg hp]
  exact hread hv d

/-- Witness for C7 at the concrete plain path `"a.b"` and leaf `5`: the write
produces `{a: {b: 5}}` and reading `"a.b"` with the unrelated default `"z"`
returns `5`. -/
theorem C7_roundtrip_plain_paths_witness :
    set_by_path (Val.dict []) "a.b" (Val.int 5) =
      Except.ok (Val.dict [(PyKey.str "a", Val.dict [(PyKey.str "b", Val.int 5)])]) ∧
    get_by_path (Val.dict [(PyKey.str "a", Val.dict [(PyKey.str "b", Val.int 5)])])
      "a.b" (Val.str "z") = Except.ok (Val.int 5) := by
  obtain ⟨doc, h1, h2⟩ :=
    C7_roundtrip_plain_paths "a.b" (Val.int 5) (by decide) (by decide) rfl
  have e0 : set_by_path (Val.dict []) "a.b" (Val.int 5) =
      Except.ok (Val.dict [(PyKey.str "a", Val.dict [(PyKey.str "b", Val.int 5)])]) := rfl
  have hd := Except.ok.inj (h1.symm.trans e0)
  subst hd
  exact ⟨e0, h2 (Val.str "z")⟩

/-- Claim C8: a write at an indexed final segment only grows the addressed
sequence: afterwards its length is the maximum of the old length and
`idx + 1` (hence at least `idx + 1`, and never truncated), every existing
element away from the written index is preserved, the written index holds
the value, every newly created position holds an appended placeholder, and
the growth loop appends exactly one placeholder at a time while the sequence
is too short. -/
theorem C8_sequences_only_grow :
    ∀ (seg k : String) (idx : Nat) (xs : List Val) (v : Val),
    matchSub seg = Option.none → matchIndexed seg = some (k, idx) →
    ∃ ys, setParts (Val.dict [(PyKey.str k, Val.list xs)]) [seg] v =
        Except.ok (Val.dict [(PyKey.str k, Val.list ys)]) ∧
      ys.length = max xs.length (idx + 1) ∧
      (∀ j, j < xs.length → j ≠ idx → ys[j]? = xs[j]?) ∧
      ys[idx]? = some v ∧
      (∀ j, xs.length ≤ j → j < ys.length → j ≠ idx → ys[j]? = some (Val.dict [])) ∧
      (∀ zs : List Val, zs.length ≤ idx →
        growList zs idx = growList (zs ++ [Val.dict []]) idx) := by
  intro seg k idx xs v hms hmi
  have hlen : idx < (growList xs idx).length := by
    rw [growList_eq]
    simp only [List.length_append, List.length_replicate]
    omega
  refine ⟨(growList xs idx).set idx v, ?_, ?_, ?_, ?_, ?_, ?_⟩
  · rw [setParts]
    simp only [hms, hmi]
    have hcond : idx < xs.length + (idx + 1 - xs.length) := by omega
    simp [pySetdefault, dictGet, dictSet, padVal, setItemNat, setItemStr, hcond]
  · simp only [List.length_set]
    rw [growList_eq]
    simp only [List.length_append, List.length_replicate]
    omega
  · intro j hj hne
    rw [List.getElem?_set_ne (Ne.symm hne), growList_eq,
      List.getElem?_append_left hj]
  · exact List.getElem?_set_self hlen
  · intro j hj1 hj2 hjne
    have hj2' : j < xs.length + (idx + 1 - xs.length) := by
      simpa [growList_eq] using hj2
    rw [List.getElem?_set_ne (Ne.symm hjne), growList_eq,
      List.getElem?_append_right hj1, List.getElem?_replicate, if_pos (by omega)]
  · intro zs hz
    conv_lhs => rw [growList]
    rw [if_pos hz]

/-- Witness for C8: writing `"x"` at `k[3]` over the existing one-element
sequence `[1]` yields `[1, {}, {}, "x"]` — grown to length `4 = max 1 4`,
with the old element kept and the gap filled by appended placeholders. -/
theorem C8_sequences_only_grow_witness :
    setParts (Val.dict [(PyKey.str "k", Val.list [Val.int 1])]) ["k[3]"] (Val.str "x") =
      Except.ok (Val.dict [(PyKey.str "k",
        Val.list [Val.int 1, Val.dict [], Val.dict [], Val.str "x"])]) := by
  obtain ⟨ys, h1, h2, h3, h4, h5, h6⟩ :=
    C8_sequences_only_grow "k[3]" "k" 3 [Val.int 1] (Val.str "x") rfl rfl
  have hlen : ys.length = 4 := by simpa using h2
  have hys : ys = [Val.int 1, Val.dict [], Val.dict [], Val.str "x"] := by
    apply List.ext_getElem?
    intro n
    match n with
    | 0 => simpa using h3 0 (by decide) (by decide)
    | 1 => simpa using h5 1 (by decide) (by omega) (by decide)
    | 2 => simpa using h5 2 (by decide) (by omega) (by decide)
    | 3 => simpa using h4
    | (m + 4) =>
        have ha : ys[m + 4]? = none := List.getElem?_eq_none (by omega)
        have hb : ([Val.int 1, Val.dict [], Val.dict [], Val.str "x"] :
            List Val)[m + 4]? = none :=
          List.getElem?_eq_none (by
            rw [show ([Val.int 1, Val.dict [], Val.dict [], Val.str "x"] :
              List Val).length = 4 from rfl]
            omega)
        rw [ha, hb]
  rw [hys] at h1
  exact h1

/-- Claim C9: a segment that matches neither regex — one whose bracket
content is not exactly one or more decimal digits, such as `a[-1]`, `a[]`,
or symbol content — is treated as a literal plain key: the reader looks it
up verbatim in the mapping (absent ⇒ default, present non-null ⇒ that
value), and the writer stores the value under the verbatim segment text; no
index is extracted.  Decimal digits are the full Unicode `Nd` class matched
by Python's `\d` (so a Unicode-digit index such as `k[٣]` is parsed as
indexed, not literal), and the `$` anchor of `re.match` admits one trailing
newline; both are modelled in `matchIndexed`/`matchSub`, so the hypotheses
exclude exactly the segments the code parses as indexed. -/
theorem C9_malformed_bracket_is_literal_key :
    ∀ (seg : String), matchIndexed seg = Option.none → matchSub seg = Option.none →
    ∀ (kvs : List (PyKey × Val)) (d v : Val),
      (dictGet kvs (PyKey.str seg) = Option.none →
        getParts (Val.dict kvs) [seg] d = Except.ok d) ∧
      (∀ w, dictGet kvs (PyKey.str seg) = some w → w.isNone = false →
        getParts (Val.dict kvs) [seg] d = Except.ok w) ∧
      setParts (Val.dict kvs) [seg] v =
        Except.ok (Val.dict (dictSet kvs (PyKey.str seg) v)) := by
  intro seg hmi hms kvs d v
  refine ⟨?_, ?_, ?_⟩
  · intro hget
    simp [getParts, readSeg, hmi, hget]
  · intro w hget hw
    simp [getParts, readSeg, hmi, hget, hw]
  · rw [setParts]
    simp [hms, hmi, setItemStr]

/-- Witness for C9 on the malformed segment `a[-1]` (negative index): the
read of `a[-1]` on an empty document yields the default `7`, and the write
stores under the verbatim key `"a[-1]"`. -/
theorem C9_malformed_bracket_is_literal_key_witness :
    getParts (Val.dict []) ["a[-1]"] (Val.int 7) = Except.ok (Val.int 7) ∧
    setParts (Val.dict []) ["a[-1]"] (Val.str "x") =
      Except.ok (Val.dict [(PyKey.str "a[-1]", Val.str "x")]) := by
  have h := C9_malformed_bracket_is_literal_key "a[-1]" rfl rfl [] (Val.int 7) (Val.str "x")
  exact ⟨h.1 rfl, h.2.2⟩

/-- Claim C10: splitting the empty path yields the single empty segment, so
the empty-parts guard is bypassed and a write with path `""` stores the
value under the literal key `""` in any target mapping; consequently a
specification entry whose target path is `""` produces a document containing
the key `""`. -/
theorem C10_empty_path_writes_empty_key :
    pySplit "" = [""] ∧
    (∀ (kvs : List (PyKey × Val)) (v : Val),
      set_by_path (Val.dict kvs) "" v =
        Except.ok (Val.dict (dictSet kvs (PyKey.str "") v))) ∧
    (∀ (source : Val) (sp : String),
      ∃ r, create_transformed_dict source [(sp, SpecTarget.path "")] =
        Except.ok (Val.dict [(PyKey.str "", r)])) := by
  refine ⟨rfl, set_empty_path, ?_⟩
  intro source sp
  obtain ⟨raw, hraw⟩ := get_by_path_ok source sp Val.none
  refine ⟨raw, ?_⟩
  simp [create_transformed_dict, List.foldlM, runEntry, hraw, set_empty_path, dictSet]
